import Mathlib

/-!
Shallow embedding of `invoice_pricing.py` (invoice pricing: subtotal ->
discount -> tax -> total).  Python floats are modelled by exact rationals
(`ℚ`); `ValueError` and `AssertionError` become the two constructors of
`PricingError`; Python's built-in `round(x, 2)` (round half to even) becomes
`round2`.
-/

namespace InvoicePricing

instance {ε α : Type} [DecidableEq ε] [DecidableEq α] : DecidableEq (Except ε α)
  | Except.ok x, Except.ok y => decidable_of_iff (x = y) (by simp)
  | Except.error e, Except.error f => decidable_of_iff (e = f) (by simp)
  | Except.ok _, Except.error _ => isFalse (by simp)
  | Except.error _, Except.ok _ => isFalse (by simp)

/-- The two error kinds of the module: `invalidArgument` models Python's
`ValueError` (caller input validation), `invariantViolation` models
`AssertionError` / failed `assert` (internal consistency checks). -/
inductive PricingError where
  | invalidArgument (msg : String)
  | invariantViolation (msg : String)
  deriving DecidableEq

/-- `TAX_RATE: Final[float] = 0.19`. -/
def TAX_RATE : ℚ := 19 / 100

/-- `MAX_DISCOUNT_PCT: Final[float] = 0.50`. -/
def MAX_DISCOUNT_PCT : ℚ := 1 / 2

/-- `class Item(NamedTuple): price: float; qty: int`. -/
structure Item where
  price : ℚ
  qty : ℤ
  deriving DecidableEq

/-- `DiscountPolicy` protocol: one operation `apply(subtotal) -> float`,
which may raise. -/
def DiscountPolicy : Type := ℚ → Except PricingError ℚ

/-- `@dataclass(frozen=True) class PercentageDiscountPolicy: percent: float`. -/
structure PercentageDiscountPolicy where
  percent : ℚ
  deriving DecidableEq

/-- `PercentageDiscountPolicy.__post_init__`: constructing the policy raises
`ValueError` unless `0.0 <= percent <= MAX_DISCOUNT_PCT`.  Modelled as a
fallible smart constructor. -/
def PercentageDiscountPolicy.make (percent : ℚ) :
    Except PricingError PercentageDiscountPolicy :=
  if 0 ≤ percent ∧ percent ≤ MAX_DISCOUNT_PCT then
    Except.ok ⟨percent⟩
  else
    Except.error (.invalidArgument "percent must be in [0.0, 0.50]")

/-- `PercentageDiscountPolicy.apply`: raises `ValueError` if `subtotal < 0.0`,
otherwise returns `subtotal * self.percent`. -/
def PercentageDiscountPolicy.apply (self : PercentageDiscountPolicy)
    (subtotal : ℚ) : Except PricingError ℚ :=
  if subtotal < 0 then
    Except.error (.invalidArgument "subtotal must be >= 0.0")
  else
    Except.ok (subtotal * self.percent)

/-- `currency_symbol`: exhaustive match over `"USD"` / `"EUR"`, default
raises `ValueError`.  The EUR branch of the source file literally contains
the three-character string `"â‚¬"` (the UTF-8 bytes of the euro sign
re-decoded as cp1252), and the embedding reproduces those exact
characters. -/
def currency_symbol (currency : String) : Except PricingError String :=
  match currency with
  | "USD" => Except.ok "$"
  | "EUR" => Except.ok "â‚¬"
  | _ => Except.error (.invalidArgument ("Unsupported currency: " ++ currency))

/-- Python's built-in `round` to the nearest integer with ties to even
(banker's rounding), on exact rationals. -/
def roundHalfEven (x : ℚ) : ℤ :=
  if x - ⌊x⌋ < 1 / 2 then ⌊x⌋
  else if 1 / 2 < x - ⌊x⌋ then ⌊x⌋ + 1
  else if ⌊x⌋ % 2 = 0 then ⌊x⌋ else ⌊x⌋ + 1

/-- `round(x, 2)`: round to two decimal places, ties to even. -/
def round2 (x : ℚ) : ℚ := (roundHalfEven (x * 100) : ℚ) / 100

/-- The accumulation loop of `compute_total`: for each item, raise
`ValueError` if `it.price < 0.0 or it.qty <= 0`, otherwise add
`it.price * it.qty` to the running subtotal. -/
def accumulate (subtotal : ℚ) : List Item → Except PricingError ℚ
  | [] => Except.ok subtotal
  | it :: rest =>
    if it.price < 0 ∨ it.qty ≤ 0 then
      Except.error (.invalidArgument "invalid item")
    else
      accumulate (subtotal + it.price * (it.qty : ℚ)) rest

/-- `discount.apply(subtotal) if discount else 0.0`: the discount value used
by the pipeline, 0 when no policy is supplied. -/
def discountValueOf (discount : Option DiscountPolicy) (subtotal : ℚ) :
    Except PricingError ℚ :=
  match discount with
  | some d => d subtotal
  | none => Except.ok 0

/-- `compute_total(items, discount=None)`: `None` items raise `ValueError`;
the loop validates and accumulates; the discount (0 when no policy is
supplied) is re-checked to lie in `[0, subtotal]` (else `AssertionError`);
the taxed amount `(subtotal - discount_value) * (1.0 + TAX_RATE)` is
asserted non-negative and returned rounded to two decimals. -/
def compute_total (items : Option (List Item))
    (discount : Option DiscountPolicy) : Except PricingError ℚ :=
  match items with
  | none => Except.error (.invalidArgument "items cannot be None")
  | some its =>
    match accumulate 0 its with
    | Except.error e => Except.error e
    | Except.ok subtotal =>
      match discountValueOf discount subtotal with
      | Except.error e => Except.error e
      | Except.ok discount_value =>
        if 0 ≤ discount_value ∧ discount_value ≤ subtotal then
          if 0 ≤ (subtotal - discount_value) * (1 + TAX_RATE) then
            Except.ok (round2 ((subtotal - discount_value) * (1 + TAX_RATE)))
          else Except.error (.invariantViolation "post: total must be >= 0")
        else
          Except.error (.invariantViolation "discount must be in [0, subtotal]")

/-- Spec-level subtotal: the sum of `price * quantity` over the items. -/
def subtotalOf (items : List Item) : ℚ :=
  (items.map (fun it => it.price * (it.qty : ℚ))).sum

/-- Validity of an item list as the spec states it: every item has
`price >= 0` and `quantity > 0`. -/
def ValidItems (items : List Item) : Prop :=
  ∀ it ∈ items, 0 ≤ it.price ∧ 0 < it.qty

instance (items : List Item) : Decidable (ValidItems items) :=
  List.decidableBAll _ items

/-! ## Basic lemmas about the rounding function -/

theorem roundHalfEven_of_lt_half {x : ℚ} {n : ℤ} (h1 : (n : ℚ) ≤ x)
    (h2 : x < (n : ℚ) + 1 / 2) : roundHalfEven x = n := by
  have hf : ⌊x⌋ = n := by
    rw [Int.floor_eq_iff]
    refine ⟨h1, ?_⟩
    linarith
  unfold roundHalfEven
  rw [hf]
  have hc : x - (n : ℚ) < 1 / 2 := by linarith
  rw [if_pos hc]

theorem roundHalfEven_of_gt_half {x : ℚ} {n : ℤ} (h1 : (n : ℚ) + 1 / 2 < x)
    (h2 : x < (n : ℚ) + 1) : roundHalfEven x = n + 1 := by
  have hf : ⌊x⌋ = n := by
    rw [Int.floor_eq_iff]
    refine ⟨by linarith, by linarith⟩
  unfold roundHalfEven
  rw [hf]
  have hcA : ¬ (x - (n : ℚ) < 1 / 2) := by push_neg; linarith
  have hcB : (1 : ℚ) / 2 < x - (n : ℚ) := by linarith
  rw [if_neg hcA, if_pos hcB]

theorem roundHalfEven_tie (n : ℤ) :
    roundHalfEven ((n : ℚ) + 1 / 2) = if n % 2 = 0 then n else n + 1 := by
  have hf : ⌊((n : ℚ) + 1 / 2)⌋ = n := by
    rw [Int.floor_eq_iff]
    refine ⟨by linarith, by linarith⟩
  unfold roundHalfEven
  rw [hf]
  have hx : ((n : ℚ) + 1 / 2) - (n : ℚ) = 1 / 2 := by ring
  rw [hx]
  norm_num

theorem roundHalfEven_intCast (n : ℤ) : roundHalfEven (n : ℚ) = n := by
  have := roundHalfEven_of_lt_half (x := (n : ℚ)) (n := n) le_rfl (by norm_num)
  exact this

theorem le_roundHalfEven (x : ℚ) : ⌊x⌋ ≤ roundHalfEven x := by
  unfold roundHalfEven
  split_ifs <;> omega

theorem roundHalfEven_le (x : ℚ) : roundHalfEven x ≤ ⌊x⌋ + 1 := by
  unfold roundHalfEven
  split_ifs <;> omega

theorem roundHalfEven_mono {x y : ℚ} (hxy : x ≤ y) :
    roundHalfEven x ≤ roundHalfEven y := by
  have hf : ⌊x⌋ ≤ ⌊y⌋ := Int.floor_le_floor hxy
  rcases lt_or_eq_of_le hf with hlt | heq
  · calc roundHalfEven x ≤ ⌊x⌋ + 1 := roundHalfEven_le x
      _ ≤ ⌊y⌋ := by omega
      _ ≤ roundHalfEven y := le_roundHalfEven y
  · unfold roundHalfEven
    rw [← heq]
    split_ifs <;> first | omega | linarith

theorem round2_mono {x y : ℚ} (h : x ≤ y) : round2 x ≤ round2 y := by
  unfold round2
  have h1 : roundHalfEven (x * 100) ≤ roundHalfEven (y * 100) :=
    roundHalfEven_mono (by linarith)
  have h2 : (roundHalfEven (x * 100) : ℚ) ≤ (roundHalfEven (y * 100) : ℚ) := by
    exact_mod_cast h1
  linarith

theorem round2_of_mul_eq_int {x : ℚ} {n : ℤ} (hx : x * 100 = (n : ℚ)) :
    round2 x = x := by
  unfold round2
  rw [hx, roundHalfEven_intCast]
  rw [← hx]
  ring

theorem round2_zero : round2 0 = 0 :=
  round2_of_mul_eq_int (n := 0) (by norm_num)

/-! ## Lemmas about the accumulation loop and the subtotal -/

theorem subtotalOf_nil : subtotalOf [] = 0 := by
  simp [subtotalOf]

theorem subtotalOf_cons (it : Item) (rest : List Item) :
    subtotalOf (it :: rest) = it.price * (it.qty : ℚ) + subtotalOf rest := by
  simp [subtotalOf]

theorem validItems_cons {it : Item} {rest : List Item}
    (h : ValidItems (it :: rest)) :
    (0 ≤ it.price ∧ 0 < it.qty) ∧ ValidItems rest := by
  refine ⟨h it (by simp), fun i hi => h i (by simp [hi])⟩

theorem accumulate_ok (items : List Item) (h : ValidItems items) :
    ∀ s : ℚ, accumulate s items = Except.ok (s + subtotalOf items) := by
  induction items with
  | nil =>
    intro s
    simp [accumulate, subtotalOf_nil]
  | cons it rest ih =>
    intro s
    obtain ⟨⟨hp, hq⟩, hrest⟩ := validItems_cons h
    have hcond : ¬ (it.price < 0 ∨ it.qty ≤ 0) := by
      push_neg
      exact ⟨hp, hq⟩
    simp only [accumulate]
    rw [if_neg hcond, ih hrest, subtotalOf_cons]
    congr 1
    ring

theorem accumulate_error (items : List Item)
    (h : ∃ it ∈ items, it.price < 0 ∨ it.qty ≤ 0) :
    ∀ s : ℚ,
      accumulate s items = Except.error (.invalidArgument "invalid item") := by
  induction items with
  | nil => simp at h
  | cons it rest ih =>
    intro s
    by_cases hc : it.price < 0 ∨ it.qty ≤ 0
    · simp only [accumulate]
      rw [if_pos hc]
    · simp only [accumulate]
      rw [if_neg hc]
      apply ih
      rcases h with ⟨j, hj, hbad⟩
      rcases List.mem_cons.mp hj with rfl | hj2
      · exact absurd hbad hc
      · exact ⟨j, hj2, hbad⟩

theorem subtotalOf_nonneg (items : List Item) (h : ValidItems items) :
    0 ≤ subtotalOf items := by
  induction items with
  | nil => simp [subtotalOf_nil]
  | cons it rest ih =>
    obtain ⟨⟨hp, hq⟩, hrest⟩ := validItems_cons h
    rw [subtotalOf_cons]
    have h1 : (0 : ℚ) ≤ (it.qty : ℚ) := by exact_mod_cast le_of_lt hq
    have h2 : (0 : ℚ) ≤ it.price * (it.qty : ℚ) := mul_nonneg hp h1
    have h3 := ih hrest
    linarith

/-! ## Unfolding lemmas for the pipeline -/

theorem compute_total_eq_aux (its : List Item) (d : Option DiscountPolicy)
    (s dv : ℚ) (hacc : accumulate 0 its = Except.ok s)
    (hd : discountValueOf d s = Except.ok dv) :
    compute_total (some its) d =
      if 0 ≤ dv ∧ dv ≤ s then
        if 0 ≤ (s - dv) * (1 + TAX_RATE) then
          Except.ok (round2 ((s - dv) * (1 + TAX_RATE)))
        else Except.error (.invariantViolation "post: total must be >= 0")
      else
        Except.error (.invariantViolation "discount must be in [0, subtotal]") := by
  simp only [compute_total, hacc, hd]

theorem compute_total_none_eq (items : List Item) (h : ValidItems items) :
    compute_total (some items) none =
      Except.ok (round2 (subtotalOf items * (1 + TAX_RATE))) := by
  have hacc := accumulate_ok items h 0
  rw [zero_add] at hacc
  have hs := subtotalOf_nonneg items h
  have hstep := compute_total_eq_aux items none (subtotalOf items) 0 hacc rfl
  rw [hstep, if_pos ⟨le_rfl, hs⟩]
  have htax : (0 : ℚ) ≤ (subtotalOf items - 0) * (1 + TAX_RATE) := by
    unfold TAX_RATE
    nlinarith
  rw [if_pos htax]
  norm_num

theorem compute_total_pct_eq (items : List Item) (h : ValidItems items)
    (p : ℚ) (hp0 : 0 ≤ p) (hp1 : p ≤ MAX_DISCOUNT_PCT) :
    compute_total (some items) (some (PercentageDiscountPolicy.apply ⟨p⟩)) =
      Except.ok
        (round2 ((subtotalOf items - subtotalOf items * p) * (1 + TAX_RATE))) := by
  have hacc := accumulate_ok items h 0
  rw [zero_add] at hacc
  have hs := subtotalOf_nonneg items h
  have happly : discountValueOf (some (PercentageDiscountPolicy.apply ⟨p⟩))
      (subtotalOf items) = Except.ok (subtotalOf items * p) := by
    simp only [discountValueOf, PercentageDiscountPolicy.apply]
    rw [if_neg (not_lt.mpr hs)]
  have hp1' : p ≤ 1 := le_trans hp1 (by norm_num [MAX_DISCOUNT_PCT])
  have hd0 : (0 : ℚ) ≤ subtotalOf items * p := mul_nonneg hs hp0
  have hds : subtotalOf items * p ≤ subtotalOf items := by nlinarith
  have hstep := compute_total_eq_aux items _ (subtotalOf items)
    (subtotalOf items * p) hacc happly
  rw [hstep, if_pos ⟨hd0, hds⟩]
  have htax : (0 : ℚ) ≤ (subtotalOf items - subtotalOf items * p) *
      (1 + TAX_RATE) := by
    unfold TAX_RATE
    nlinarith
  rw [if_pos htax]

theorem make_eq_ok_iff (p : ℚ) (pol : PercentageDiscountPolicy) :
    PercentageDiscountPolicy.make p = Except.ok pol ↔
      (0 ≤ p ∧ p ≤ MAX_DISCOUNT_PCT) ∧ pol = ⟨p⟩ := by
  unfold PercentageDiscountPolicy.make
  split_ifs with hc
  · simp [eq_comm, hc]
  · simp [hc]

/-! ## The claims -/

/-- C1: for every valid item list (each price ≥ 0, quantity > 0) with no
discount policy, `compute_total` returns `round(subtotal * 1.19, 2)` where
`subtotal` is the sum of `price * quantity`; in particular the empty list
with no discount yields `0.0`. -/
theorem C1_no_discount_total (items : List Item) (h : ValidItems items) :
    compute_total (some items) none =
      Except.ok (round2 (subtotalOf items * (1 + TAX_RATE))) ∧
    compute_total (some []) none = Except.ok 0 := by
  refine ⟨compute_total_none_eq items h, ?_⟩
  rw [compute_total_none_eq [] (by intro it hit; simp at hit)]
  rw [subtotalOf_nil, zero_mul, round2_zero]

/-- C1 witness: the hypotheses of `C1_no_discount_total` hold at the
concrete one-item list `[(price 10, qty 2)]`. -/
theorem C1_no_discount_total_witness :
    ValidItems [⟨10, 2⟩] ∧
    compute_total (some [⟨10, 2⟩]) none =
      Except.ok (round2 (subtotalOf [⟨10, 2⟩] * (1 + TAX_RATE))) ∧
    compute_total (some []) none = Except.ok 0 := by
  have hv : ValidItems [⟨10, 2⟩] := by
    intro it hit
    simp only [List.mem_singleton] at hit
    subst hit
    norm_num
  exact ⟨hv, C1_no_discount_total [⟨10, 2⟩] hv⟩

/-- C2: for items `[(10.0, 2), (4.5, 1)]` with a 10% percentage discount
policy, `compute_total` returns exactly 26.24 (subtotal 24.5, discount 2.45,
taxed 26.2395). -/
theorem C2_concrete_scenario :
    PercentageDiscountPolicy.make (1 / 10) = Except.ok ⟨1 / 10⟩ ∧
    compute_total (some [⟨10, 2⟩, ⟨9 / 2, 1⟩])
        (some (PercentageDiscountPolicy.apply ⟨1 / 10⟩)) =
      Except.ok (2624 / 100) := by
  constructor
  · rw [(make_eq_ok_iff (1 / 10) ⟨1 / 10⟩)]
    norm_num [MAX_DISCOUNT_PCT]
  · have hv : ValidItems [⟨10, 2⟩, ⟨9 / 2, 1⟩] := by
      intro it hit
      rcases List.mem_cons.mp hit with rfl | hit2
      · norm_num
      · simp only [List.mem_singleton] at hit2
        subst hit2
        norm_num
    rw [compute_total_pct_eq _ hv (1 / 10) (by norm_num)
      (by norm_num [MAX_DISCOUNT_PCT])]
    have hs : subtotalOf [⟨10, 2⟩, ⟨9 / 2, 1⟩] = 49 / 2 := by
      norm_num [subtotalOf]
    rw [hs]
    have harg : ((49 : ℚ) / 2 - 49 / 2 * (1 / 10)) * (1 + TAX_RATE) =
        52479 / 2000 := by
      norm_num [TAX_RATE]
    rw [harg]
    have hrnd : roundHalfEven ((52479 : ℚ) / 2000 * 100) = 2624 := by
      have h1 : ((52479 : ℚ) / 2000 * 100) = 52479 / 20 := by norm_num
      rw [h1]
      have h2 := roundHalfEven_of_gt_half (x := (52479 : ℚ) / 20) (n := 2623)
        (by norm_num) (by norm_num)
      rw [h2]
      norm_num
    rw [round2, hrnd]
    norm_num

/-- C3: `compute_total` fails with `InvalidArgument` on a `None` items
collection and whenever some item has `price < 0` or `qty ≤ 0` (the whole
call fails); for valid items with no policy or an in-range percentage
policy, no `InvalidArgument` is raised (the call succeeds). -/
theorem C3_input_validation (items : List Item) (d : Option DiscountPolicy) :
    (∀ d2 : Option DiscountPolicy,
      ∃ m, compute_total none d2 = Except.error (.invalidArgument m)) ∧
    ((∃ it ∈ items, it.price < 0 ∨ it.qty ≤ 0) →
      ∃ m, compute_total (some items) d = Except.error (.invalidArgument m)) ∧
    (ValidItems items →
      (∃ q, compute_total (some items) none = Except.ok q) ∧
      ∀ p : ℚ, 0 ≤ p → p ≤ MAX_DISCOUNT_PCT →
        ∃ q, compute_total (some items)
          (some (PercentageDiscountPolicy.apply ⟨p⟩)) = Except.ok q) := by
  refine ⟨fun d2 => ⟨"items cannot be None", rfl⟩, fun hbad => ?_, fun hv => ?_⟩
  · refine ⟨"invalid item", ?_⟩
    simp only [compute_total, accumulate_error items hbad 0]
  · exact ⟨⟨_, compute_total_none_eq items hv⟩,
      fun p hp0 hp1 => ⟨_, compute_total_pct_eq items hv p hp0 hp1⟩⟩

/-- C3 witness: concrete instances — `None` items fail, a list containing a
negative-price item fails, and a valid list succeeds. -/
theorem C3_input_validation_witness :
    (∃ m, compute_total none none = Except.error (.invalidArgument m)) ∧
    (∃ m, compute_total (some [⟨-1, 1⟩]) none =
      Except.error (.invalidArgument m)) ∧
    (∃ q, compute_total (some [⟨10, 2⟩]) none = Except.ok q) := by
  have h1 := C3_input_validation [⟨-1, 1⟩] none
  have h2 := C3_input_validation [⟨10, 2⟩] none
  refine ⟨h1.1 none, h1.2.1 ⟨⟨-1, 1⟩, by simp, Or.inl (by norm_num)⟩,
    (h2.2.2 ?_).1⟩
  intro it hit
  simp only [List.mem_singleton] at hit
  subst hit
  norm_num

/-- C4: constructing `PercentageDiscountPolicy percent` fails with
`InvalidArgument` exactly when `percent` is outside `[0, 0.50]`, and a
successfully constructed policy retains its `percent` value. -/
theorem C4_constructor_validation (p : ℚ) :
    ((∃ m, PercentageDiscountPolicy.make p =
        Except.error (.invalidArgument m)) ↔
      ¬ (0 ≤ p ∧ p ≤ MAX_DISCOUNT_PCT)) ∧
    (∀ pol : PercentageDiscountPolicy,
      PercentageDiscountPolicy.make p = Except.ok pol → pol.percent = p) := by
  constructor
  · constructor
    · rintro ⟨m, hm⟩ hc
      rw [PercentageDiscountPolicy.make, if_pos hc] at hm
      exact Except.noConfusion hm
    · intro hc
      exact ⟨_, by rw [PercentageDiscountPolicy.make, if_neg hc]⟩
  · intro pol hpol
    rcases (make_eq_ok_iff p pol).mp hpol with ⟨_, rfl⟩
    rfl

/-- C4 witness: `percent = 0.6` is rejected; `percent = 0.1` is accepted and
the constructed policy holds `percent = 0.1`. -/
theorem C4_constructor_validation_witness :
    (∃ m, PercentageDiscountPolicy.make (3 / 5) =
      Except.error (.invalidArgument m)) ∧
    (⟨1 / 10⟩ : PercentageDiscountPolicy).percent = 1 / 10 := by
  refine ⟨(C4_constructor_validation (3 / 5)).1.mpr
    (by norm_num [MAX_DISCOUNT_PCT]), ?_⟩
  refine (C4_constructor_validation (1 / 10)).2 ⟨1 / 10⟩ ?_
  rw [(make_eq_ok_iff (1 / 10) ⟨1 / 10⟩)]
  norm_num [MAX_DISCOUNT_PCT]

/-- C5: for a policy with `percent ∈ [0, 0.50]`, `apply subtotal` fails with
`InvalidArgument` when `subtotal < 0` and otherwise returns exactly
`subtotal * percent`, which satisfies `0 ≤ discount ≤ subtotal`. -/
theorem C5_apply_contract (p subtotal : ℚ) (hp0 : 0 ≤ p)
    (hp1 : p ≤ MAX_DISCOUNT_PCT) :
    (subtotal < 0 →
      ∃ m, PercentageDiscountPolicy.apply ⟨p⟩ subtotal =
        Except.error (.invalidArgument m)) ∧
    (0 ≤ subtotal →
      PercentageDiscountPolicy.apply ⟨p⟩ subtotal =
        Except.ok (subtotal * p) ∧
      0 ≤ subtotal * p ∧ subtotal * p ≤ subtotal) := by
  constructor
  · intro hneg
    exact ⟨_, by rw [PercentageDiscountPolicy.apply, if_pos hneg]⟩
  · intro hpos
    refine ⟨by rw [PercentageDiscountPolicy.apply, if_neg (not_lt.mpr hpos)],
      mul_nonneg hpos hp0, ?_⟩
    have hp1' : p ≤ 1 := le_trans hp1 (by norm_num [MAX_DISCOUNT_PCT])
    nlinarith

/-- C5 witness: at `percent = 0.1`, applying to subtotal `-1` fails and
applying to subtotal `20` returns `20 * 0.1`. -/
theorem C5_apply_contract_witness :
    (∃ m, PercentageDiscountPolicy.apply ⟨1 / 10⟩ (-1) =
      Except.error (.invalidArgument m)) ∧
    PercentageDiscountPolicy.apply ⟨1 / 10⟩ 20 = Except.ok (20 * (1 / 10)) := by
  have h1 := C5_apply_contract (1 / 10) (-1) (by norm_num)
    (by norm_num [MAX_DISCOUNT_PCT])
  have h2 := C5_apply_contract (1 / 10) 20 (by norm_num)
    (by norm_num [MAX_DISCOUNT_PCT])
  exact ⟨h1.1 (by norm_num), (h2.2 (by norm_num)).1⟩

/-- C6 (evaluation at the failing input): `currency_symbol` maps `"USD"` to
`"$"` and rejects `"GBP"` with an `InvalidArgument` naming the code, as the
claim states; but for `"EUR"` it returns the literal three-character
mojibake string `"â‚¬"` present in the source, not the euro sign `"€"`. -/
theorem C6_currency_symbol_eval :
    currency_symbol "USD" = Except.ok "$" ∧
    currency_symbol "EUR" = Except.ok "â‚¬" ∧
    currency_symbol "EUR" ≠ Except.ok "€" ∧
    currency_symbol "GBP" =
      Except.error (.invalidArgument ("Unsupported currency: " ++ "GBP")) := by
  refine ⟨rfl, rfl, ?_, rfl⟩
  decide

/-- C7: if the supplied policy returns a discount outside `[0, subtotal]`,
`compute_total` fails with the invariant-violation error kind (distinct from
`InvalidArgument`). -/
theorem C7_defensive_postcondition (items : List Item) (pol : DiscountPolicy)
    (v : ℚ) (hvalid : ValidItems items)
    (happly : pol (subtotalOf items) = Except.ok v)
    (hbad : ¬ (0 ≤ v ∧ v ≤ subtotalOf items)) :
    compute_total (some items) (some pol) =
      Except.error (.invariantViolation "discount must be in [0, subtotal]") := by
  have hacc := accumulate_ok items hvalid 0
  rw [zero_add] at hacc
  have hd : discountValueOf (some pol) (subtotalOf items) = Except.ok v := happly
  rw [compute_total_eq_aux items (some pol) (subtotalOf items) v hacc hd,
    if_neg hbad]

/-- C7 witness: a policy that always returns `-1` trips the defensive check
on the empty item list. -/
theorem C7_defensive_postcondition_witness :
    compute_total (some []) (some (fun _ => Except.ok (-1))) =
      Except.error (.invariantViolation "discount must be in [0, subtotal]") := by
  refine C7_defensive_postcondition [] (fun _ => Except.ok (-1)) (-1)
    (by intro it hit; simp at hit) rfl ?_
  rw [subtotalOf_nil]
  norm_num

/-- C8: for fixed valid items, the total computed with
`PercentageDiscountPolicy percent` is non-increasing in `percent` on
`[0, 0.5]`. -/
theorem C8_discount_monotone (items : List Item) (hvalid : ValidItems items)
    (p1 p2 : ℚ) (hp1 : 0 ≤ p1) (hp12 : p1 ≤ p2) (hp2 : p2 ≤ MAX_DISCOUNT_PCT)
    (t1 t2 : ℚ)
    (e1 : compute_total (some items)
      (some (PercentageDiscountPolicy.apply ⟨p1⟩)) = Except.ok t1)
    (e2 : compute_total (some items)
      (some (PercentageDiscountPolicy.apply ⟨p2⟩)) = Except.ok t2) :
    t2 ≤ t1 := by
  rw [compute_total_pct_eq items hvalid p1 hp1 (le_trans hp12 hp2)] at e1
  rw [compute_total_pct_eq items hvalid p2 (le_trans hp1 hp12) hp2] at e2
  injection e1 with e1'
  injection e2 with e2'
  rw [← e1', ← e2']
  apply round2_mono
  have hs := subtotalOf_nonneg items hvalid
  have hmul : subtotalOf items * p1 ≤ subtotalOf items * p2 :=
    mul_le_mul_of_nonneg_left hp12 hs
  have htax : (0 : ℚ) ≤ 1 + TAX_RATE := by norm_num [TAX_RATE]
  nlinarith

/-- C8 witness: for the single item `(10, 1)`, percent 0.5 gives total 5.95
and percent 0 gives total 11.9, and the theorem yields `5.95 ≤ 11.9`. -/
theorem C8_discount_monotone_witness : (595 : ℚ) / 100 ≤ 1190 / 100 := by
  have hv : ValidItems [⟨10, 1⟩] := by
    intro it hit
    simp only [List.mem_singleton] at hit
    subst hit
    norm_num
  have hs : subtotalOf [⟨10, 1⟩] = 10 := by norm_num [subtotalOf]
  refine C8_discount_monotone [⟨10, 1⟩] hv 0 (1 / 2) le_rfl (by norm_num)
    (by norm_num [MAX_DISCOUNT_PCT]) (1190 / 100) (595 / 100) ?_ ?_
  · rw [compute_total_pct_eq [⟨10, 1⟩] hv 0 le_rfl
      (by norm_num [MAX_DISCOUNT_PCT]), hs]
    have harg : ((10 : ℚ) - 10 * 0) * (1 + TAX_RATE) = 1190 / 100 := by
      norm_num [TAX_RATE]
    rw [harg, round2_of_mul_eq_int (n := 1190) (by norm_num)]
  · rw [compute_total_pct_eq [⟨10, 1⟩] hv (1 / 2) (by norm_num)
      (by norm_num [MAX_DISCOUNT_PCT]), hs]
    have harg : ((10 : ℚ) - 10 * (1 / 2)) * (1 + TAX_RATE) = 595 / 100 := by
      norm_num [TAX_RATE]
    rw [harg, round2_of_mul_eq_int (n := 595) (by norm_num)]

/-- C9: for valid items and a discount that is `None` or a successfully
constructed `PercentageDiscountPolicy`, the two internal consistency checks
never trigger: the call returns `ok` and no invariant-violation error. -/
theorem C9_invariants_unreachable (items : List Item)
    (hvalid : ValidItems items) (d : Option DiscountPolicy)
    (hd : d = none ∨ ∃ p pol, PercentageDiscountPolicy.make p = Except.ok pol ∧
      d = some pol.apply) :
    ∃ q, compute_total (some items) d = Except.ok q := by
  rcases hd with rfl | ⟨p, pol, hmk, rfl⟩
  · exact ⟨_, compute_total_none_eq items hvalid⟩
  · rcases (make_eq_ok_iff p pol).mp hmk with ⟨⟨hp0, hp1⟩, rfl⟩
    exact ⟨_, compute_total_pct_eq items hvalid p hp0 hp1⟩

/-- C9 witness: concrete valid items with a constructed 10% policy complete
without any invariant-violation error. -/
theorem C9_invariants_unreachable_witness :
    ∃ q, compute_total (some [⟨10, 2⟩])
      (some (PercentageDiscountPolicy.apply ⟨1 / 10⟩)) = Except.ok q := by
  have hv : ValidItems [⟨10, 2⟩] := by
    intro it hit
    simp only [List.mem_singleton] at hit
    subst hit
    norm_num
  refine C9_invariants_unreachable [⟨10, 2⟩] hv _ (Or.inr ⟨1 / 10, ⟨1 / 10⟩, ?_, rfl⟩)
  rw [(make_eq_ok_iff (1 / 10) ⟨1 / 10⟩)]
  norm_num [MAX_DISCOUNT_PCT]

/-- C10: the final rounding of `compute_total` is round-half-to-even: when
the taxed amount is exactly halfway between two two-decimal values, i.e.
equals `(2k+1)/200`, the result is the neighbour `k/100` or `(k+1)/100`
whose last digit is even. -/
theorem C10_banker_rounding (items : List Item) (hvalid : ValidItems items)
    (k : ℤ)
    (hhalf : subtotalOf items * (1 + TAX_RATE) = (2 * (k : ℚ) + 1) / 200) :
    compute_total (some items) none =
      Except.ok ((if k % 2 = 0 then (k : ℚ) else (k : ℚ) + 1) / 100) := by
  rw [compute_total_none_eq items hvalid, hhalf]
  unfold round2
  have h1 : (2 * (k : ℚ) + 1) / 200 * 100 = (k : ℚ) + 1 / 2 := by ring
  rw [h1, roundHalfEven_tie k]
  split_ifs with hk
  · norm_num
  · push_cast
    norm_num

/-- C10 witness: the item `(401/238, 1)` makes the taxed amount exactly
2.005 (`k = 200`, even), and the total is 2.00, not 2.01. -/
theorem C10_banker_rounding_witness :
    compute_total (some [⟨401 / 238, 1⟩]) none = Except.ok 2 := by
  have hv : ValidItems [⟨401 / 238, 1⟩] := by
    intro it hit
    simp only [List.mem_singleton] at hit
    subst hit
    norm_num
  have h := C10_banker_rounding [⟨401 / 238, 1⟩] hv 200
    (by norm_num [subtotalOf, TAX_RATE])
  rw [h]
  norm_num

end InvoicePricing
